import Mathlib

/-!
Verification development for the mcp-veo2 MCP server
(sources: src/services/veoClient.ts, src/tools/generateVideo.ts).

The TypeScript code is shallowly embedded:
* the filesystem is an explicit `Store` value (a list of path/content pairs),
  threaded through every operation that the source performs with `fs`;
* `JSON.parse` failure on a sidecar file is represented by the file holding
  the `FileContent.corruptJson` constructor; a parsable sidecar holds the
  structured record directly (JSON serialization is assumed faithful);
* network and entropy collaborators (`fetch`, `uuidv4`, `Date.toISOString`,
  the API key) are explicit environment records;
* JavaScript string primitives (`toLowerCase`, `startsWith`, `includes`,
  `path.extname`) are re-implemented over `List Char` so that all
  definitions compute by kernel reduction;
* `path.resolve(dir, base ++ ext)` is modelled structurally as the triple
  `FilePath.mk dir base ext`; for the names the program builds (an id plus
  an extension drawn from a fixed set) this is injective exactly when the
  string form is, so no aliasing behavior is lost.
-/

namespace Veo

/-- JavaScript `String.prototype.toLowerCase`. -/
def strToLower (s : String) : String := ⟨s.data.map Char.toLower⟩

/-- JavaScript `String.prototype.startsWith`. -/
def strStartsWith (s pre : String) : Bool := pre.data.isPrefixOf s.data

/-- Infix test on character lists (JavaScript `String.prototype.includes`). -/
def infixCheck (pat : List Char) : List Char → Bool
  | [] => pat.isPrefixOf []
  | c :: t => pat.isPrefixOf (c :: t) || infixCheck pat t

/-- JavaScript `String.prototype.includes`. -/
def strIncludes (s sub : String) : Bool := infixCheck sub.data s.data

/-- A filesystem path `dir/base ++ ext`, as built by
`path.resolve(storageDir, id + extension)` in the source. -/
structure FilePath where
  dir : String
  base : String
  ext : String
deriving DecidableEq

/-- Contents of one file in the modelled filesystem.  A sidecar that
`JSON.parse` would reject is `corruptJson`; a parsable one carries the
parsed record. -/
inductive FileContent (μ : Type) where
  | metaJson (m : μ)
  | corruptJson
  | binary (data : List Nat)
deriving DecidableEq

/-- The storage directory state used by `VeoClient` (`this.storageDir` plus
the files below it; `files` also holds any file the metadata may point at
outside the directory). -/
structure Store (μ : Type) where
  storageDir : String
  files : List (FilePath × FileContent μ)
deriving DecidableEq

variable {μ : Type}

/-- `fs.readFile`: `none` models the ENOENT throw. -/
def readFile (s : Store μ) (p : FilePath) : Option (FileContent μ) :=
  (s.files.find? (fun e => e.1 == p)).map (·.2)

/-- `fs.writeFile`: replaces any previous content at `p`. -/
def writeFile (s : Store μ) (p : FilePath) (c : FileContent μ) : Store μ :=
  { s with files := (s.files.filter (fun e => !(e.1 == p))) ++ [(p, c)] }

/-- The effective (defaults-resolved) configuration stored in metadata, per
the `config:` field assembled in `saveVideoBuffer` and the deferred branch. -/
structure StoredConfig where
  aspect : String
  personGeneration : String
  durationSeconds : Nat
deriving DecidableEq

/-- `StoredVideoMetadata` of veoClient.ts.  The `filepath: ''` sentinel of
the source is modelled as `none` (JavaScript tests it by truthiness). -/
structure StoredVideoMetadata where
  id : String
  createdAt : String
  prompt : Option String
  config : StoredConfig
  mimeType : String
  size : Nat
  filepath : Option FilePath
  videoUrl : Option String
deriving DecidableEq

/-- The caller-supplied `VideoConfig` (all fields optional). -/
structure VideoConfig where
  aspect : Option String := none
  personGeneration : Option String := none
  numberOfVideos : Option Nat := none
  durationSeconds : Option Nat := none
  negativePrompt : Option String := none
deriving DecidableEq

/-- JavaScript `a || d` for an optional string (empty string is falsy). -/
def orDefaultStr (o : Option String) (d : String) : String :=
  match o with
  | some s => if s = "" then d else s
  | none => d

/-- JavaScript `a || d` for an optional number (0 is falsy). -/
def orDefaultNat (o : Option Nat) (d : Nat) : Nat :=
  match o with
  | some n => if n = 0 then d else n
  | none => d

/-- The defaults applied when building stored metadata:
`config?.aspectRatio || '16:9'`, `config?.personGeneration || 'dont_allow'`,
`config?.durationSeconds || 5`. -/
def effectiveConfig (config : Option VideoConfig) : StoredConfig :=
  { aspect := orDefaultStr (config.bind (·.aspect)) "16:9"
    personGeneration := orDefaultStr (config.bind (·.personGeneration)) "dont_allow"
    durationSeconds := orDefaultNat (config.bind (·.durationSeconds)) 5 }

/-- Path of the JSON sidecar for `id`:
`path.resolve(this.storageDir, id + '.json')`. -/
def metaPath (dir id : String) : FilePath := ⟨dir, id, ".json"⟩

/-- Video store instantiation of the generic filesystem model. -/
abbrev VStore := Store StoredVideoMetadata

/-- `saveMetadata(id, metadata)` of veoClient.ts. -/
def saveMetadata (s : VStore) (id : String) (m : StoredVideoMetadata) : VStore :=
  writeFile s (metaPath s.storageDir id) (.metaJson m)

/-- `saveVideoBuffer(videoBuffer, prompt, config, id)` of veoClient.ts:
writes the binary to `{storageDir}/{id}.mp4`, then the sidecar, and returns
the metadata.  `now` stands for `new Date().toISOString()`. -/
def saveVideoBuffer (s : VStore) (videoBuffer : List Nat) (prompt : Option String)
    (config : Option VideoConfig) (id : String) (now : String) :
    StoredVideoMetadata × VStore :=
  let filePath : FilePath := ⟨s.storageDir, id, ".mp4"⟩
  let s1 := writeFile s filePath (.binary videoBuffer)
  let metadata : StoredVideoMetadata :=
    { id := id
      createdAt := now
      prompt := prompt
      config := effectiveConfig config
      mimeType := "video/mp4"
      size := videoBuffer.length
      filepath := some filePath
      videoUrl := none }
  (metadata, saveMetadata s1 id metadata)

/-- `getMetadata(id)` of veoClient.ts: read and parse the sidecar, throwing
`Video metadata not found: id` when the read or the parse fails. -/
def getMetadata (s : VStore) (id : String) : Except String StoredVideoMetadata :=
  match readFile s (metaPath s.storageDir id) with
  | some (.metaJson m) => .ok m
  | _ => .error ("Video metadata not found: " ++ id)

/-- Reading a binary artifact file; a file that is not binary content at
that path is treated like an absent file (never produced by the program). -/
def binRead (s : VStore) (p : FilePath) : Option (List Nat) :=
  match readFile s p with
  | some (.binary d) => some d
  | _ => none

/-- Result shape of `getVideo`: the metadata plus, when full data was
requested, the raw bytes (the source also base64-encodes them into
`videoData`; the bytes determine that string). -/
structure GetVideoResult where
  metadata : StoredVideoMetadata
  data : Option (List Nat)
deriving DecidableEq

/-- `getVideo(id, options)` of veoClient.ts, with the filesystem state
threaded explicitly.  Any throw inside the body is converted by the
`catch` into `Video not found: id`.  When the stored filepath is empty the
source constructs one from the MIME type, rewrites the sidecar, and only
then reads the binary. -/
def getVideo (s : VStore) (id : String) (includeFullData : Bool) :
    Except String GetVideoResult × VStore :=
  match getMetadata s id with
  | .error _ => (.error ("Video not found: " ++ id), s)
  | .ok metadata =>
    if !includeFullData then
      (.ok ⟨metadata, none⟩, s)
    else
      let resolved : StoredVideoMetadata × FilePath × VStore :=
        match metadata.filepath with
        | some fp => (metadata, fp, s)
        | none =>
          let extension := if metadata.mimeType = "video/mp4" then ".mp4" else ".webm"
          let fp : FilePath := ⟨s.storageDir, id, extension⟩
          let m' := { metadata with filepath := some fp }
          (m', fp, saveMetadata s id m')
      match binRead resolved.2.2 resolved.2.1 with
      | none => (.error ("Video not found: " ++ id), resolved.2.2)
      | some data => (.ok ⟨resolved.1, some data⟩, resolved.2.2)

/-- Parse step for one sidecar name inside `listVideos`
(`fs.readFile` + `JSON.parse`): `none` when either throws. -/
def parseSidecar (s : VStore) (p : FilePath) : Option StoredVideoMetadata :=
  match readFile s p with
  | some (.metaJson m) => some m
  | _ => none

/-- The names `fs.readdir(storageDir)` followed by the
`.endsWith('.json')` filter produces. -/
def jsonNames (s : Store μ) : List FilePath :=
  (s.files.map (·.1)).filter (fun p => p.dir == s.storageDir && p.ext == ".json")

/-- `listVideos()` of veoClient.ts: reads every sidecar through
`Promise.all`; one parse failure rejects the whole batch and the outer
`catch` returns the empty list. -/
def listVideos (s : VStore) : List StoredVideoMetadata :=
  match (jsonNames s).mapM (parseSidecar s) with
  | some ms => ms
  | none => []

/-! ## Image artifact side (generateVideo.ts) -/

/-- Metadata record written by `saveGeneratedImage` in generateVideo.ts. -/
structure ImageMetadata where
  id : String
  createdAt : String
  prompt : String
  mimeType : String
  size : Nat
  filepath : Option FilePath
deriving DecidableEq

/-- Image store (rooted at `IMAGE_STORAGE_DIR`). -/
abbrev IStore := Store ImageMetadata

/-- The metadata-gathering core of `listGeneratedImages` in generateVideo.ts:
each sidecar is read inside its own `try`, a failure logs and yields `null`,
and nulls are filtered out afterwards. -/
def listImagesMeta (s : IStore) : List ImageMetadata :=
  (jsonNames s).filterMap (fun p =>
    match readFile s p with
    | some (.metaJson m) => some m
    | _ => none)

/-- `getImageMetadata(id)` of generateVideo.ts. -/
def getImageMetadata (s : IStore) (id : String) : Except String ImageMetadata :=
  match readFile s (metaPath s.storageDir id) with
  | some (.metaJson m) => .ok m
  | _ => .error ("Image metadata not found: " ++ id)

/-! ## Image input normalizer (`processImageInput` in veoClient.ts) -/

/-- Result of `fetch` for an image URL: on success the `content-type`
header (possibly absent) and the body bytes. -/
inductive FetchImageR where
  | ok (contentType : Option String) (body : List Nat)
  | httpError (status : Nat) (statusText : String)

/-- External collaborators of the normalizer: HTTP fetch, `fs.readFile` on a
raw path string, and base64 encoding (abstract, injectivity irrelevant). -/
structure ImgEnv where
  httpFetch : String → FetchImageR
  fsRead : String → Option (List Nat)
  b64 : List Nat → String

/-- Node `path.extname`, posix flavor: extension of the basename starting at
its last dot, empty when the only dot is the leading character. -/
def extname (p : String) : String :=
  let b := (p.data.reverse.takeWhile (fun c => c ≠ '/')).reverse
  match ((List.range b.length).filter (fun i => b.getD i ' ' = '.')).getLast? with
  | some i => if i > 0 then ⟨b.drop i⟩ else ""
  | none => ""

/-- The extension switch of `processImageInput` (veoClient.ts lines
128-145), default `image/jpeg`. -/
def mimeFromExtension (extension : String) : String :=
  if extension = ".png" then "image/png"
  else if extension = ".jpg" then "image/jpeg"
  else if extension = ".jpeg" then "image/jpeg"
  else if extension = ".gif" then "image/gif"
  else if extension = ".webp" then "image/webp"
  else "image/jpeg"

/-- `processImageInput(image, mimeType)` of veoClient.ts, returning the
base64 payload and the MIME type, or the thrown message. -/
def processImageInput (env : ImgEnv) (image : String) (mimeType : Option String) :
    Except String (String × String) :=
  if strStartsWith image "http://" || strStartsWith image "https://" then
    match env.httpFetch image with
    | .httpError status statusText =>
      .error ("Failed to fetch image: " ++ toString status ++ " " ++ statusText)
    | .ok contentType body =>
      .ok (env.b64 body, orDefaultStr contentType (orDefaultStr mimeType "image/jpeg"))
  else if strStartsWith image "/" || strIncludes image ":\\" || strIncludes image ":/" then
    match env.fsRead image with
    | none => .error ("ENOENT: no such file or directory, open " ++ image)
    | some buffer =>
      let detected :=
        match mimeType with
        | some m => if m = "" then mimeFromExtension (strToLower (extname image)) else m
        | none => mimeFromExtension (strToLower (extname image))
      .ok (env.b64 buffer, detected)
  else
    .ok (image, orDefaultStr mimeType "image/png")

/-! ## Boolean-ish tool parameters (generateVideo.ts) -/

/-- A tool argument that may arrive as a boolean or as a string. -/
inductive BoolIsh where
  | bool (b : Bool)
  | str (v : String)
deriving DecidableEq

/-- `enhancePrompt` coercion in `generateVideoFromText` (lines 106-108). -/
def genTextEnhancePrompt (a : Option BoolIsh) : Bool :=
  match a with
  | some (.str v) => strToLower v == "true" || v == "1"
  | some (.bool b) => b
  | none => false

/-- `includeFullData` coercion in `generateVideoFromText` (lines 110-112). -/
def genTextIncludeFullData (a : Option BoolIsh) : Bool :=
  match a with
  | some (.str v) => strToLower v == "true" || v == "1"
  | some (.bool b) => b
  | none => false

/-- `autoDownload` coercion in `generateVideoFromText` (lines 114-116). -/
def genTextAutoDownload (a : Option BoolIsh) : Bool :=
  match a with
  | some (.str v) => strToLower v == "true" || v == "1"
  | some (.bool b) => b
  | none => true

/-- `enhancePrompt` coercion in `generateVideoFromImage` (lines 219-221). -/
def genImageEnhancePrompt (a : Option BoolIsh) : Bool :=
  match a with
  | some (.str v) => strToLower v == "true" || v == "1"
  | some (.bool b) => b
  | none => false

/-- `includeFullData` coercion in `generateVideoFromImage` (lines 223-225). -/
def genImageIncludeFullData (a : Option BoolIsh) : Bool :=
  match a with
  | some (.str v) => strToLower v == "true" || v == "1"
  | some (.bool b) => b
  | none => false

/-- `autoDownload` coercion in `generateVideoFromImage` (lines 227-229). -/
def genImageAutoDownload (a : Option BoolIsh) : Bool :=
  match a with
  | some (.str v) => strToLower v == "true" || v == "1"
  | some (.bool b) => b
  | none => true

/-- The single rule the spec prescribes for boolean-ish parameters: strings
via case-insensitive "true" / exact "1", booleans as themselves, and a
per-field default used only for an absent field. -/
def coerceFlag (a : Option BoolIsh) (dflt : Bool) : Bool :=
  match a with
  | some (.str v) => strToLower v == "true" || v == "1"
  | some (.bool b) => b
  | none => dflt

/-! ## Remote generation pipeline (veoClient.ts) -/

/-- One result descriptor of a completed operation
(`operation.response.generatedVideos[i]`). -/
structure VideoRef where
  uri : Option String
deriving DecidableEq

/-- `generatedVideo` element: `video` itself is optional. -/
structure GeneratedVideo where
  video : Option VideoRef
deriving DecidableEq

/-- `operation.response` shape. -/
structure OpResponse where
  generatedVideos : Option (List GeneratedVideo)
deriving DecidableEq

/-- The remote operation handle: `done` flag plus optional response. -/
structure VideoOperationModel where
  done : Bool
  response : Option OpResponse := none
deriving DecidableEq

/-- A video download attempt (`fetch(videoUri)`). -/
inductive FetchResult where
  | ok (data : List Nat)
  | httpError (status : Nat) (statusText : String)

/-- Collaborators of a generation run: the API key appended to each URI,
the clock, the stream of fresh UUIDs (indexed by descriptor position, one
`uuidv4()` call per fan-out callback), and the download fetch. -/
structure GenEnv where
  apiKey : String
  now : String
  uuid : Nat → String
  fetch : String → FetchResult

/-- The JavaScript truthiness test `!generatedVideo.video?.uri` used to
skip a descriptor: yields the URI only when present and non-empty. -/
def fetchableUri (gv : GeneratedVideo) : Option String :=
  match gv.video with
  | none => none
  | some r =>
    match r.uri with
    | none => none
    | some u => if u = "" then none else some u

/-- One fan-out callback of `generateFromText` / `generateFromImage`
(veoClient.ts lines 237-285 and 411-459): skip-with-log on a missing URI,
otherwise download-and-save or defer according to `autoDownload`.  A
non-success fetch status throws. -/
def processOne (env : GenEnv) (s : VStore) (prompt : Option String)
    (config : Option VideoConfig) (autoDownload : Bool) (idx : Nat)
    (gv : GeneratedVideo) : Except String (Option StoredVideoMetadata) × VStore :=
  match fetchableUri gv with
  | none => (.ok none, s)
  | some uri =>
    let videoUri := uri ++ "&key=" ++ env.apiKey
    let id := if idx = 0 then env.uuid idx else env.uuid idx ++ "_" ++ toString idx
    if autoDownload then
      match env.fetch videoUri with
      | .httpError status statusText =>
        (.error ("Failed to fetch video: " ++ toString status ++ " " ++ statusText), s)
      | .ok buffer =>
        let r := saveVideoBuffer s buffer prompt config id env.now
        (.ok (some r.1), r.2)
    else
      let metadata : StoredVideoMetadata :=
        { id := id
          createdAt := env.now
          prompt := prompt
          config := effectiveConfig config
          mimeType := "video/mp4"
          size := 0
          filepath := none
          videoUrl := some videoUri }
      (.ok (some metadata), saveMetadata s id metadata)

/-- `Promise.all` over the fan-out callbacks: every callback runs to
completion (each writes disjoint fresh files, so the sequential
linearization is faithful), and the first rejection in descriptor order
becomes the batch error. -/
def processVideos (env : GenEnv) (prompt : Option String)
    (config : Option VideoConfig) (autoDownload : Bool) :
    VStore → Nat → List GeneratedVideo →
    Option String × List (Option StoredVideoMetadata) × VStore
  | s, _, [] => (none, [], s)
  | s, idx, gv :: rest =>
    let r := processOne env s prompt config autoDownload idx gv
    let t := processVideos env prompt config autoDownload r.2 (idx + 1) rest
    match r.1 with
    | .ok v => (t.1, v :: t.2.1, t.2.2)
    | .error e => (some e, t.2.1, t.2.2)

/-- What a generation call returns: the first valid artifact's metadata and,
when requested and downloaded, the raw bytes behind `videoData`. -/
structure GenerateResult where
  metadata : StoredVideoMetadata
  videoData : Option (List Nat)
deriving DecidableEq

/-- The post-polling tail shared verbatim by `generateFromText`
(veoClient.ts lines 232-314) and `generateFromImage` (lines 406-488):
no-videos check, fan-out, null filtering, total-failure check, and the
result shaping including the optional full-data re-read. -/
def runGeneration (env : GenEnv) (s : VStore) (prompt : String)
    (config : Option VideoConfig) (autoDownload includeFullData : Bool)
    (generatedVideos : Option (List GeneratedVideo)) :
    Except String GenerateResult × VStore :=
  match generatedVideos with
  | none => (.error "No videos generated in the response", s)
  | some gvs =>
    if gvs.length = 0 then (.error "No videos generated in the response", s)
    else
      let t := processVideos env (some prompt) config autoDownload s 0 gvs
      match t.1 with
      | some e => (.error e, t.2.2)
      | none =>
        match t.2.1.filterMap id with
        | [] => (.error "Failed to process any videos", t.2.2)
        | result :: _ =>
          if !autoDownload && !(result.videoUrl == none) && !(result.videoUrl == some "") then
            (.ok ⟨result, none⟩, t.2.2)
          else if includeFullData && autoDownload then
            match result.filepath with
            | some fp =>
              match binRead t.2.2 fp with
              | none => (.error "ENOENT: no such file or directory", t.2.2)
              | some d => (.ok ⟨result, some d⟩, t.2.2)
            | none => (.ok ⟨result, none⟩, t.2.2)
          else
            (.ok ⟨result, none⟩, t.2.2)

/-- `VideoGenerationOptions` of veoClient.ts. -/
structure VideoGenerationOptions where
  autoDownload : Option Bool := none
  includeFullData : Option Bool := none
deriving DecidableEq

/-- `generateFromText` after its operation completed: option defaulting
(`options?.autoDownload !== false`, `options?.includeFullData === true`)
followed by the shared tail. -/
def generateFromTextCore (env : GenEnv) (s : VStore) (prompt : String)
    (config : Option VideoConfig) (options : Option VideoGenerationOptions)
    (operation : VideoOperationModel) : Except String GenerateResult × VStore :=
  let autoDownload := !((options.bind (·.autoDownload)) == some false)
  let includeFullData := (options.bind (·.includeFullData)) == some true
  runGeneration env s prompt config autoDownload includeFullData
    (operation.response.bind (·.generatedVideos))

/-- `generateFromImage` after its operation completed: like the text path
but with the prompt defaulted (`prompt || 'Generate a video from this
image'`). -/
def generateFromImageCore (env : GenEnv) (s : VStore) (prompt : Option String)
    (config : Option VideoConfig) (options : Option VideoGenerationOptions)
    (operation : VideoOperationModel) : Except String GenerateResult × VStore :=
  let p := orDefaultStr prompt "Generate a video from this image"
  generateFromTextCore env s p config options operation

/-! ## Polling loop (veoClient.ts lines 217-226 and 391-400) -/

/-- The polling loop, fuel-indexed so it is total in the embedding:
`f 0` is the operation returned by `generateVideos`, `f (k+1)` the k-th
re-fetch via `operations.getVideosOperation`.  While the current handle is
not done the loop sleeps 5000 ms and re-fetches; on completion it returns
the done handle together with the total milliseconds slept.  Running out
of fuel (`none`) means the loop is still running - there is no timeout
outcome. -/
def pollOperation (f : Nat → VideoOperationModel) :
    Nat → Nat → Option (VideoOperationModel × Nat)
  | 0, _ => none
  | fuel + 1, n =>
    if (f n).done then some (f n, 5000 * n) else pollOperation f fuel (n + 1)

/-! ## Tool layer envelopes (generateVideo.ts) -/

/-- One MCP content item. -/
inductive ContentItem where
  | text (t : String)
  | image (mimeType : String) (data : String)
deriving DecidableEq

/-- `CallToolResult` as produced by the tools. -/
structure CallToolResult where
  isError : Bool
  content : List ContentItem
deriving DecidableEq

/-- The raw JavaScript truthiness of an optional boolean-or-string argument
(used by `if (args.includeFullData && result.videoData)`). -/
def truthyArg : Option BoolIsh → Bool
  | none => false
  | some (.bool b) => b
  | some (.str v) => !(v == "")

/-- The `generateVideoFromText` tool (generateVideo.ts lines 90-181)
around its awaited gateway call: on success it shapes the content list
(optional inline data item plus a JSON text rendered by `render`, standing
for `JSON.stringify` of the success payload); any error thrown inside the
body is caught and converted into the failure envelope. -/
def generateVideoFromTextTool (gw : Except String GenerateResult)
    (includeFullDataArg : Option BoolIsh) (b64 : List Nat → String)
    (render : GenerateResult → String) : CallToolResult :=
  match gw with
  | .error e => ⟨true, [.text ("Error generating video: " ++ e)]⟩
  | .ok result =>
    let dataItems : List ContentItem :=
      match truthyArg includeFullDataArg, result.videoData with
      | true, some d => [.image result.metadata.mimeType (b64 d)]
      | _, _ => []
    ⟨false, dataItems ++ [.text (render result)]⟩

/-- The `getImage` tool (generateVideo.ts lines 567-634): metadata lookup,
coercion of `includeFullData` (default true), a best-effort binary read
whose failure is absorbed by an inner catch, and the outer catch producing
the failure envelope. -/
def getImage (s : IStore) (b64 : List Nat → String)
    (render : ImageMetadata → String) (id : String)
    (includeFullData : Option BoolIsh) : CallToolResult :=
  match getImageMetadata s id with
  | .error e => ⟨true, [.text ("Error getting image: " ++ e)]⟩
  | .ok metadata =>
    let inc :=
      match includeFullData with
      | some (.str v) => strToLower v == "true" || v == "1"
      | some (.bool b) => b
      | none => true
    let imgItems : List ContentItem :=
      if inc then
        match metadata.filepath with
        | some fp =>
          match readFile s fp with
          | some (.binary d) =>
            [.image (orDefaultStr (some metadata.mimeType) "image/png") (b64 d)]
          | _ => []
        | none => []
      else []
    ⟨false, imgItems ++ [.text (render metadata)]⟩

/-! ## Basic store lemmas -/

theorem storageDir_writeFile (s : Store μ) (p : FilePath) (c : FileContent μ) :
    (writeFile s p c).storageDir = s.storageDir := rfl

theorem readFile_writeFile_same (s : Store μ) (p : FilePath) (c : FileContent μ) :
    readFile (writeFile s p c) p = some c := by
  have h : ∀ l : List (FilePath × FileContent μ),
      ((l.filter fun e => !(e.1 == p)) ++ [(p, c)]).find? (fun e => e.1 == p)
        = some (p, c) := by
    intro l
    induction l with
    | nil => simp
    | cons a t ih =>
      by_cases ha : a.1 = p
      · have hap : (a.1 == p) = true := beq_iff_eq.mpr ha
        simp [List.filter_cons, hap, ih]
      · have hap : (a.1 == p) = false := beq_eq_false_iff_ne.mpr ha
        simp [List.filter_cons, hap, List.find?_cons, ih]
  simp [readFile, writeFile, h s.files]

theorem readFile_writeFile_ne (s : Store μ) (p q : FilePath) (c : FileContent μ)
    (hpq : q ≠ p) : readFile (writeFile s p c) q = readFile s q := by
  have hpqb : (p == q) = false := beq_eq_false_iff_ne.mpr (Ne.symm hpq)
  have h : ∀ l : List (FilePath × FileContent μ),
      ((l.filter fun e => !(e.1 == p)) ++ [(p, c)]).find? (fun e => e.1 == q)
        = l.find? (fun e => e.1 == q) := by
    intro l
    induction l with
    | nil => simp [List.find?_cons, hpqb]
    | cons a t ih =>
      by_cases ha : a.1 = p
      · have hap : (a.1 == p) = true := beq_iff_eq.mpr ha
        have haq : (a.1 == q) = false := by rw [ha]; exact hpqb
        simp [List.filter_cons, hap, List.find?_cons, haq, ih]
      · have hap : (a.1 == p) = false := beq_eq_false_iff_ne.mpr ha
        by_cases hq : a.1 = q
        · have haq : (a.1 == q) = true := beq_iff_eq.mpr hq
          simp [List.filter_cons, hap, List.find?_cons, haq]
        · have haq : (a.1 == q) = false := beq_eq_false_iff_ne.mpr hq
          simp [List.filter_cons, hap, List.find?_cons, haq, ih]
  simp [readFile, writeFile, h s.files]

theorem mp4_path_ne_json_path (d i : String) :
    (⟨d, i, ".mp4"⟩ : FilePath) ≠ metaPath d i := by
  intro h
  have : (".mp4" : String) = ".json" := congrArg FilePath.ext h
  exact absurd this (by decide)

/-- C6: round-trip through the local artifact store - saving a byte buffer
under an id and reading it back with full data requested returns exactly
the saved metadata and byte-for-byte identical bytes. -/
theorem save_then_get_roundtrip (s : VStore) (buf : List Nat)
    (prompt : Option String) (config : Option VideoConfig) (id now : String) :
    (getVideo (saveVideoBuffer s buf prompt config id now).2 id true).1
      = .ok ⟨(saveVideoBuffer s buf prompt config id now).1, some buf⟩ := by
  unfold saveVideoBuffer
  set binP : FilePath := ⟨s.storageDir, id, ".mp4"⟩ with hbinP
  set m : StoredVideoMetadata :=
    { id := id, createdAt := now, prompt := prompt, config := effectiveConfig config
      mimeType := "video/mp4", size := buf.length, filepath := some binP
      videoUrl := none } with hm
  have hdir : (saveMetadata (writeFile s binP (.binary buf)) id m).storageDir
      = s.storageDir := rfl
  have hmeta : readFile (saveMetadata (writeFile s binP (.binary buf)) id m)
      (metaPath s.storageDir id) = some (.metaJson m) := by
    unfold saveMetadata
    exact readFile_writeFile_same _ _ _
  have hbin : readFile (saveMetadata (writeFile s binP (.binary buf)) id m) binP
      = some (.binary buf) := by
    unfold saveMetadata
    rw [storageDir_writeFile, hbinP]
    rw [readFile_writeFile_ne _ _ _ _ (mp4_path_ne_json_path s.storageDir id)]
    exact readFile_writeFile_same _ _ _
  unfold getVideo getMetadata
  rw [hdir, hmeta]
  simp [binRead, hbin]

/-- The path of the binary file `getVideo(id, includeFullData=true)` reads:
the stored filepath when set, otherwise the path the source constructs from
the storage directory, the id and the MIME-derived extension. -/
def binaryPathFor (s : VStore) (id : String) (m : StoredVideoMetadata) : FilePath :=
  match m.filepath with
  | some fp => fp
  | none => ⟨s.storageDir, id, if m.mimeType = "video/mp4" then ".mp4" else ".webm"⟩

/-- C4: with a parsable sidecar, `getVideo(id, false)` succeeds with
metadata only, its result depending only on the sidecar (no binary I/O)
and the state untouched; `getVideo(id, true)` fails with the not-found
error when the binary file is absent; and when the sidecar is missing or
unparsable both flag values fail with the not-found error. -/
theorem getVideo_notfound_and_metadata_only (s : VStore) (id : String) :
    (∀ m, getMetadata s id = .ok m → getVideo s id false = (.ok ⟨m, none⟩, s)) ∧
    (∀ s₂ : VStore, s₂.storageDir = s.storageDir →
      readFile s₂ (metaPath s.storageDir id) = readFile s (metaPath s.storageDir id) →
      (getVideo s₂ id false).1 = (getVideo s id false).1) ∧
    (∀ m, getMetadata s id = .ok m → m.filepath ≠ none →
      binRead s (binaryPathFor s id m) = none →
      (getVideo s id true).1 = .error ("Video not found: " ++ id)) ∧
    (∀ e, getMetadata s id = .error e →
      ∀ b, (getVideo s id b).1 = .error ("Video not found: " ++ id)) := by
  refine ⟨?_, ?_, ?_, ?_⟩
  · intro m hm
    unfold getVideo
    rw [hm]
    simp
  · intro s₂ hdir hread
    unfold getVideo getMetadata
    rw [hdir, hread]
    cases h : readFile s (metaPath s.storageDir id) with
    | none => simp [h]
    | some c =>
      cases c with
      | metaJson m => simp [h]
      | corruptJson => simp [h]
      | binary d => simp [h]
  · intro m hm hfp hbin
    unfold getVideo
    rw [hm]
    cases hfpv : m.filepath with
    | none => exact absurd hfpv hfp
    | some fp =>
      unfold binaryPathFor at hbin
      rw [hfpv] at hbin
      simp [hfpv, hbin]
  · intro e he b
    unfold getVideo
    rw [he]

/-- C4 witness: a concrete store with a sidecar for "a" but no binary. -/
theorem getVideo_notfound_and_metadata_only_witness :
    getVideo
        ⟨"/s", [(⟨"/s", "a", ".json"⟩,
          .metaJson ⟨"a", "t", none, ⟨"16:9", "dont_allow", 5⟩, "video/mp4", 3,
            some ⟨"/s", "a", ".mp4"⟩, none⟩)]⟩
        "a" false
      = (.ok ⟨⟨"a", "t", none, ⟨"16:9", "dont_allow", 5⟩, "video/mp4", 3,
          some ⟨"/s", "a", ".mp4"⟩, none⟩, none⟩,
        ⟨"/s", [(⟨"/s", "a", ".json"⟩,
          .metaJson ⟨"a", "t", none, ⟨"16:9", "dont_allow", 5⟩, "video/mp4", 3,
            some ⟨"/s", "a", ".mp4"⟩, none⟩)]⟩) ∧
    (getVideo
        ⟨"/s", [(⟨"/s", "a", ".json"⟩,
          .metaJson ⟨"a", "t", none, ⟨"16:9", "dont_allow", 5⟩, "video/mp4", 3,
            some ⟨"/s", "a", ".mp4"⟩, none⟩)]⟩
        "a" true).1
      = .error "Video not found: a" ∧
    (getVideo (⟨"/s", []⟩ : VStore) "b" true).1 = .error "Video not found: b" := by
  refine ⟨?_, ?_, ?_⟩
  · exact (getVideo_notfound_and_metadata_only
      ⟨"/s", [(⟨"/s", "a", ".json"⟩,
        .metaJson ⟨"a", "t", none, ⟨"16:9", "dont_allow", 5⟩, "video/mp4", 3,
          some ⟨"/s", "a", ".mp4"⟩, none⟩)]⟩ "a").1
      ⟨"a", "t", none, ⟨"16:9", "dont_allow", 5⟩, "video/mp4", 3,
        some ⟨"/s", "a", ".mp4"⟩, none⟩ rfl
  · exact (getVideo_notfound_and_metadata_only
      ⟨"/s", [(⟨"/s", "a", ".json"⟩,
        .metaJson ⟨"a", "t", none, ⟨"16:9", "dont_allow", 5⟩, "video/mp4", 3,
          some ⟨"/s", "a", ".mp4"⟩, none⟩)]⟩ "a").2.2.1
      ⟨"a", "t", none, ⟨"16:9", "dont_allow", 5⟩, "video/mp4", 3,
        some ⟨"/s", "a", ".mp4"⟩, none⟩ rfl (by simp) rfl
  · exact (getVideo_notfound_and_metadata_only (⟨"/s", []⟩ : VStore) "b").2.2.2
      "Video metadata not found: b" rfl true

/-- C10: `getVideo(id, includeFullData=true)` on a deferred artifact (empty
stored filepath) first overwrites the sidecar with the constructed filepath
filled in - also when the binary then turns out to be absent - and only
then attempts the binary read against the mutated store. -/
theorem getVideo_fullData_mutates_deferred_sidecar (s : VStore) (id : String)
    (m : StoredVideoMetadata) (hm : getMetadata s id = .ok m)
    (hfp : m.filepath = none) :
    (getVideo s id true).2
        = saveMetadata s id
            { m with filepath := some ⟨s.storageDir, id,
                if m.mimeType = "video/mp4" then ".mp4" else ".webm"⟩ } ∧
    (getVideo s id true).1
        = (match binRead
              (saveMetadata s id
                { m with filepath := some ⟨s.storageDir, id,
                    if m.mimeType = "video/mp4" then ".mp4" else ".webm"⟩ })
              ⟨s.storageDir, id,
                if m.mimeType = "video/mp4" then ".mp4" else ".webm"⟩ with
          | none => .error ("Video not found: " ++ id)
          | some data =>
            .ok ⟨{ m with filepath := some ⟨s.storageDir, id,
                if m.mimeType = "video/mp4" then ".mp4" else ".webm"⟩ }, some data⟩) := by
  constructor
  · unfold getVideo
    rw [hm]
    simp only [hfp, Bool.not_true]
    cases hb : binRead (saveMetadata s id
        { m with filepath := some ⟨s.storageDir, id,
            if m.mimeType = "video/mp4" then ".mp4" else ".webm"⟩ })
        ⟨s.storageDir, id, if m.mimeType = "video/mp4" then ".mp4" else ".webm"⟩ with
    | none => simp [hb]
    | some d => simp [hb]
  · unfold getVideo
    rw [hm]
    simp only [hfp, Bool.not_true]
    cases hb : binRead (saveMetadata s id
        { m with filepath := some ⟨s.storageDir, id,
            if m.mimeType = "video/mp4" then ".mp4" else ".webm"⟩ })
        ⟨s.storageDir, id, if m.mimeType = "video/mp4" then ".mp4" else ".webm"⟩ with
    | none => simp [hb]
    | some d => simp [hb]

/-- C10 witness: the deferred sidecar for "a" is rewritten on disk with the
constructed filepath even though the binary is absent. -/
theorem getVideo_fullData_mutates_deferred_sidecar_witness :
    ((getVideo
        ⟨"/s", [(⟨"/s", "a", ".json"⟩,
          .metaJson ⟨"a", "t", none, ⟨"16:9", "dont_allow", 5⟩, "video/mp4", 0,
            none, some "u"⟩)]⟩
        "a" true).2).files
      = [(⟨"/s", "a", ".json"⟩,
          .metaJson ⟨"a", "t", none, ⟨"16:9", "dont_allow", 5⟩, "video/mp4", 0,
            some ⟨"/s", "a", ".mp4"⟩, some "u"⟩)] := by
  have h := (getVideo_fullData_mutates_deferred_sidecar
    ⟨"/s", [(⟨"/s", "a", ".json"⟩,
      .metaJson ⟨"a", "t", none, ⟨"16:9", "dont_allow", 5⟩, "video/mp4", 0,
        none, some "u"⟩)]⟩
    "a"
    ⟨"a", "t", none, ⟨"16:9", "dont_allow", 5⟩, "video/mp4", 0, none, some "u"⟩
    rfl rfl).1
  rw [h]
  decide

/-! ## Listing behavior (C2) -/

theorem mapM_option_all_isSome {α β : Type} (f : α → Option β) :
    ∀ l : List α, (∀ x ∈ l, (f x).isSome) → l.mapM f = some (l.filterMap f) := by
  intro l
  induction l with
  | nil => intro _; rfl
  | cons a t ih =>
    intro h
    obtain ⟨b, hb⟩ := Option.isSome_iff_exists.mp (h a (by simp))
    rw [List.mapM_cons, hb, ih (fun x hx => h x (by simp [hx]))]
    simp [List.filterMap_cons, hb]

theorem mapM_option_none_of_mem {α β : Type} (f : α → Option β) (x : α) :
    ∀ l : List α, x ∈ l → f x = none → l.mapM f = none := by
  intro l
  induction l with
  | nil => intro h; exact absurd h (by simp)
  | cons a t ih =>
    intro hmem hx
    rw [List.mapM_cons]
    rcases List.mem_cons.mp hmem with h | h
    · rw [← h, hx]; rfl
    · cases ha : f a with
      | none => rfl
      | some b => rw [ih h hx]; rfl

theorem filterMap_congr_of_mem {α β : Type} {f g : α → Option β} :
    ∀ l : List α, (∀ x ∈ l, f x = g x) → l.filterMap f = l.filterMap g := by
  intro l
  induction l with
  | nil => intro _; rfl
  | cons a t ih =>
    intro h
    rw [List.filterMap_cons, List.filterMap_cons, h a (by simp),
      ih (fun x hx => h x (by simp [hx]))]

/-- C2 counterexample: a store holding one parsable sidecar ("a") and one
corrupt sidecar ("b"); the video listing returns the empty list instead of
the parsable entry. -/
theorem listVideos_empty_on_one_corrupt_sidecar :
    listVideos
        ⟨"/s", [(⟨"/s", "a", ".json"⟩,
            .metaJson ⟨"a", "t", none, ⟨"16:9", "dont_allow", 5⟩, "video/mp4", 0,
              none, none⟩),
          (⟨"/s", "b", ".json"⟩, .corruptJson)]⟩
      = [] ∧
    readFile
        (⟨"/s", [(⟨"/s", "a", ".json"⟩,
            .metaJson ⟨"a", "t", none, ⟨"16:9", "dont_allow", 5⟩, "video/mp4", 0,
              none, none⟩),
          (⟨"/s", "b", ".json"⟩, .corruptJson)]⟩ : VStore)
        ⟨"/s", "a", ".json"⟩
      = some (.metaJson ⟨"a", "t", none, ⟨"16:9", "dont_allow", 5⟩, "video/mp4", 0,
          none, none⟩) := by
  exact ⟨rfl, rfl⟩

/-- C2 amended: the video listing returns all sidecars when every one
parses, but one unparsable sidecar empties the whole video listing (the
failure is caught at the listing level, not per file); only the image
listing skips a corrupt sidecar per file, leaving the rest unaffected. -/
theorem listing_parse_failure_behavior :
    (∀ s : VStore, (∀ p ∈ jsonNames s, (parseSidecar s p).isSome) →
      listVideos s = (jsonNames s).filterMap (parseSidecar s)) ∧
    (∀ (s : VStore) (p : FilePath), p ∈ jsonNames s → parseSidecar s p = none →
      listVideos s = []) ∧
    (∀ (s : IStore) (p : FilePath), p.dir = s.storageDir → p.ext = ".json" →
      readFile s p = none →
      listImagesMeta (writeFile s p .corruptJson) = listImagesMeta s) := by
  refine ⟨?_, ?_, ?_⟩
  · intro s h
    unfold listVideos
    rw [mapM_option_all_isSome (parseSidecar s) (jsonNames s) h]
  · intro s p hmem hnone
    unfold listVideos
    rw [mapM_option_none_of_mem (parseSidecar s) p (jsonNames s) hmem hnone]
  · intro s p hdir hext habsent
    have hfind : s.files.find? (fun e => e.1 == p) = none := by
      unfold readFile at habsent
      cases h : s.files.find? (fun e => e.1 == p) with
      | none => rfl
      | some e => rw [h] at habsent; exact absurd habsent (by simp)
    have hkeep : s.files.filter (fun e => !(e.1 == p)) = s.files := by
      rw [List.filter_eq_self]
      intro e he
      have hne := List.find?_eq_none.mp hfind e he
      have h2 : (e.1 == p) = false := by
        cases hb : (e.1 == p) with
        | false => rfl
        | true => exact absurd hb hne
      simp [h2]
    have hfiles : (writeFile s p (.corruptJson : FileContent ImageMetadata)).files
        = s.files ++ [(p, .corruptJson)] := by
      unfold writeFile
      rw [hkeep]
    have hnames : jsonNames (writeFile s p (.corruptJson : FileContent ImageMetadata))
        = jsonNames s ++ [p] := by
      unfold jsonNames
      rw [storageDir_writeFile, hfiles, List.map_append, List.filter_append]
      have : (([(p, (.corruptJson : FileContent ImageMetadata))].map (·.1)).filter
          (fun q => q.dir == s.storageDir && q.ext == ".json")) = [p] := by
        simp [hdir, hext]
      rw [this]
    have hneq : ∀ q ∈ jsonNames s, q ≠ p := by
      intro q hq hqp
      subst hqp
      obtain ⟨e, he, hqe⟩ := List.mem_map.mp (List.mem_filter.mp hq).1
      have := List.find?_eq_none.mp hfind e he
      rw [hqe] at this
      simp at this
    unfold listImagesMeta
    rw [hnames, List.filterMap_append]
    have hsame : ∀ q ∈ jsonNames s,
        (match readFile (writeFile s p (.corruptJson : FileContent ImageMetadata)) q with
          | some (.metaJson m) => some m
          | _ => none)
        = (match readFile s q with
          | some (.metaJson m) => some m
          | _ => none) := by
      intro q hq
      rw [readFile_writeFile_ne s p q _ (hneq q hq)]
    rw [filterMap_congr_of_mem (jsonNames s) hsame]
    have hlast : ([p].filterMap (fun q =>
        match readFile (writeFile s p (.corruptJson : FileContent ImageMetadata)) q with
        | some (.metaJson m) => some m
        | _ => none)) = [] := by
      simp [List.filterMap_cons, readFile_writeFile_same]
    rw [hlast, List.append_nil]

/-- C2 amended witness: in a one-good-one-corrupt image store the image
listing still returns the good entry, while the same shape of video store
lists nothing. -/
theorem listing_parse_failure_behavior_witness :
    listImagesMeta
        (writeFile (⟨"/i", [(⟨"/i", "a", ".json"⟩,
            .metaJson ⟨"a", "t", "p", "image/png", 1, some ⟨"/i", "a", ".png"⟩⟩)]⟩ : IStore)
          ⟨"/i", "b", ".json"⟩ .corruptJson)
      = listImagesMeta
          (⟨"/i", [(⟨"/i", "a", ".json"⟩,
            .metaJson ⟨"a", "t", "p", "image/png", 1, some ⟨"/i", "a", ".png"⟩⟩)]⟩ : IStore) ∧
    listVideos
        ⟨"/v", [(⟨"/v", "b", ".json"⟩, .corruptJson)]⟩
      = [] := by
  constructor
  · exact listing_parse_failure_behavior.2.2
      (⟨"/i", [(⟨"/i", "a", ".json"⟩,
        .metaJson ⟨"a", "t", "p", "image/png", 1, some ⟨"/i", "a", ".png"⟩⟩)]⟩ : IStore)
      ⟨"/i", "b", ".json"⟩ rfl rfl rfl
  · exact listing_parse_failure_behavior.2.1
      ⟨"/v", [(⟨"/v", "b", ".json"⟩, .corruptJson)]⟩
      ⟨"/v", "b", ".json"⟩ (by decide) rfl

/-! ## Boolean-ish parameter coercion (C7) -/

/-- C7: all six boolean-ish coercion sites of the two generation tools are
instances of one rule (`coerceFlag` with the field's default); a string
argument coerces to true exactly when it equals "true" case-insensitively
or equals "1"; `autoDownload` defaults to true only when absent; and a
present-but-falsy value (boolean false, or the string "false") coerces to
false, never to the default. -/
theorem booleanish_coercion_uniform :
    (∀ a, genTextEnhancePrompt a = coerceFlag a false
      ∧ genTextIncludeFullData a = coerceFlag a false
      ∧ genTextAutoDownload a = coerceFlag a true
      ∧ genImageEnhancePrompt a = coerceFlag a false
      ∧ genImageIncludeFullData a = coerceFlag a false
      ∧ genImageAutoDownload a = coerceFlag a true) ∧
    (∀ v d, coerceFlag (some (.str v)) d = true ↔ (strToLower v = "true" ∨ v = "1")) ∧
    (genTextAutoDownload none = true ∧ genImageAutoDownload none = true) ∧
    (genTextAutoDownload (some (.bool false)) = false
      ∧ genImageAutoDownload (some (.bool false)) = false
      ∧ genTextAutoDownload (some (.str "false")) = false
      ∧ genImageAutoDownload (some (.str "false")) = false) := by
  refine ⟨?_, ?_, ⟨rfl, rfl⟩, ?_⟩
  · intro a
    cases a with
    | none => exact ⟨rfl, rfl, rfl, rfl, rfl, rfl⟩
    | some b =>
      cases b with
      | bool x => exact ⟨rfl, rfl, rfl, rfl, rfl, rfl⟩
      | str v => exact ⟨rfl, rfl, rfl, rfl, rfl, rfl⟩
  · intro v d
    unfold coerceFlag
    simp [Bool.or_eq_true, beq_iff_eq]
  · refine ⟨rfl, rfl, ?_, ?_⟩ <;> decide

/-- C7 witness: the rule applied at concrete values. -/
theorem booleanish_coercion_uniform_witness :
    genTextAutoDownload (some (.str "TRUE")) = coerceFlag (some (.str "TRUE")) true ∧
    (coerceFlag (some (.str "TRUE")) false = true ↔
      (strToLower "TRUE" = "true" ∨ "TRUE" = "1")) := by
  exact ⟨(booleanish_coercion_uniform.1 (some (.str "TRUE"))).2.2.1,
    booleanish_coercion_uniform.2.1 "TRUE" false⟩

/-! ## Polling loop (C9) -/

theorem pollOperation_some_done (f : Nat → VideoOperationModel) :
    ∀ (fuel start : Nat) (r : VideoOperationModel × Nat),
      pollOperation f fuel start = some r → ∃ k, (f k).done = true := by
  intro fuel
  induction fuel with
  | zero => intro start r h; exact absurd h (by simp [pollOperation])
  | succ n ih =>
    intro start r h
    unfold pollOperation at h
    by_cases hd : (f start).done = true
    · exact ⟨start, hd⟩
    · rw [if_neg hd] at h
      exact ih (start + 1) r h

theorem pollOperation_isSome_of_done (f : Nat → VideoOperationModel) (n : Nat)
    (hn : (f n).done = true) :
    ∀ (fuel start : Nat), start ≤ n → n < start + fuel →
      (pollOperation f fuel start).isSome := by
  intro fuel
  induction fuel with
  | zero => intro start h1 h2; omega
  | succ k ih =>
    intro start h1 h2
    unfold pollOperation
    by_cases hd : (f start).done = true
    · rw [if_pos hd]; rfl
    · rw [if_neg hd]
      have hne : start ≠ n := by
        intro h; rw [h] at hd; exact hd hn
      exact ih (start + 1) (by omega) (by omega)

theorem pollOperation_first_done (f : Nat → VideoOperationModel) (n : Nat)
    (hn : (f n).done = true) :
    ∀ (fuel start : Nat), start ≤ n → n < start + fuel →
      (∀ k, start ≤ k → k < n → (f k).done = false) →
      pollOperation f fuel start = some (f n, 5000 * n) := by
  intro fuel
  induction fuel with
  | zero => intro start h1 h2; omega
  | succ m ih =>
    intro start h1 h2 hmin
    unfold pollOperation
    by_cases hs : start = n
    · subst hs; rw [if_pos hn]
    · have hd : (f start).done = false := hmin start (le_refl start) (by omega)
      rw [if_neg (by rw [hd]; exact Bool.false_ne_true)]
      exact ih (start + 1) (by omega) (by omega) (fun k hk1 hk2 => hmin k (by omega) hk2)

theorem pollOperation_none_of_never_done (f : Nat → VideoOperationModel)
    (h : ∀ n, (f n).done = false) :
    ∀ fuel start, pollOperation f fuel start = none := by
  intro fuel
  induction fuel with
  | zero => intro start; rfl
  | succ m ih =>
    intro start
    unfold pollOperation
    rw [if_neg (by rw [h start]; exact Bool.false_ne_true)]
    exact ih (start + 1)

/-- C9: the polling loop completes (for some fuel) exactly when some fetch
in the sequence eventually reports done; when the first done handle is the
n-th, the loop returns it after exactly n sleeps of the fixed 5000 ms
interval; and when no fetch ever reports done the loop produces no
outcome at all for any fuel - in particular it never produces a timeout
failure. -/
theorem polling_completes_iff_eventually_done (f : Nat → VideoOperationModel) :
    ((∃ fuel r, pollOperation f fuel 0 = some r) ↔ (∃ n, (f n).done = true)) ∧
    (∀ n, (f n).done = true → (∀ k, k < n → (f k).done = false) →
      ∀ fuel, n < fuel → pollOperation f fuel 0 = some (f n, 5000 * n)) ∧
    ((∀ n, (f n).done = false) → ∀ fuel, pollOperation f fuel 0 = none) := by
  refine ⟨⟨?_, ?_⟩, ?_, ?_⟩
  · rintro ⟨fuel, r, h⟩
    exact pollOperation_some_done f fuel 0 r h
  · rintro ⟨n, hn⟩
    have h := pollOperation_isSome_of_done f n hn (n + 1) 0 (Nat.zero_le n) (by omega)
    obtain ⟨r, hr⟩ := Option.isSome_iff_exists.mp h
    exact ⟨n + 1, r, hr⟩
  · intro n hn hmin fuel hfuel
    exact pollOperation_first_done f n hn fuel 0 (Nat.zero_le n) (by omega)
      (fun k _ hk => hmin k hk)
  · intro h fuel
    exact pollOperation_none_of_never_done f h fuel 0

/-- C9 witness: a status sequence done from the second fetch on completes
after one 5000 ms sleep. -/
theorem polling_completes_iff_eventually_done_witness :
    pollOperation (fun n => ⟨n == 1, none⟩) 2 0 = some (⟨true, none⟩, 5000) := by
  have h := (polling_completes_iff_eventually_done (fun n => ⟨n == 1, none⟩)).2.1
    1 rfl (fun k hk => by
      have : k = 0 := by omega
      subst this
      rfl)
    2 (by omega)
  exact h

/-! ## Image input normalizer (C3) -/

/-- C3 counterexample: for the path input "/a.png" - whose extension maps
to image/png - a caller-supplied hint "image/gif" is returned instead of
the mapped value, so the hint is not restricted to unmapped extensions. -/
theorem processImageInput_hint_overrides_mapping :
    processImageInput
        ⟨fun _ => .httpError 0 "", fun _ => some [1], fun _ => "B"⟩
        "/a.png" (some "image/gif")
      = .ok ("B", "image/gif") ∧
    mimeFromExtension (strToLower (extname "/a.png")) = "image/png" := by
  exact ⟨rfl, rfl⟩

/-- C3 amended: for a path-classified input whose file read succeeds, the
extension mapping decides the MIME type only when no (non-empty) hint is
supplied; a non-empty caller hint always takes precedence, mapped
extension or not. -/
theorem processImageInput_path_mime_resolution (env : ImgEnv) (image : String)
    (buf : List Nat)
    (hnu1 : strStartsWith image "http://" = false)
    (hnu2 : strStartsWith image "https://" = false)
    (hpath : (strStartsWith image "/" || strIncludes image ":\\"
      || strIncludes image ":/") = true)
    (hread : env.fsRead image = some buf) :
    processImageInput env image none
      = .ok (env.b64 buf, mimeFromExtension (strToLower (extname image))) ∧
    ∀ h : String, h ≠ "" →
      processImageInput env image (some h) = .ok (env.b64 buf, h) := by
  constructor
  · unfold processImageInput
    rw [hnu1, hnu2]
    simp only [Bool.false_or, hpath, if_true, if_false, Bool.or_self]
    simp [hread]
  · intro h hne
    unfold processImageInput
    rw [hnu1, hnu2]
    simp only [Bool.false_or, hpath, if_true, if_false, Bool.or_self]
    simp [hread, hne]

/-- C3 amended witness: on "/a.png" with no hint the mapping yields the
mapped value; evaluated through the amended theorem. -/
theorem processImageInput_path_mime_resolution_witness :
    processImageInput
        ⟨fun _ => .httpError 0 "", fun _ => some [1], fun _ => "B"⟩
        "/a.png" none
      = .ok ("B", "image/png") := by
  exact (processImageInput_path_mime_resolution
    ⟨fun _ => .httpError 0 "", fun _ => some [1], fun _ => "B"⟩
    "/a.png" [1] rfl rfl rfl rfl).1

/-! ## Tool-layer failure envelopes (C8) -/

/-- C8: the two modelled tool entry points are total functions into
`CallToolResult`: an error surfacing from the awaited body of
`generateVideoFromText` becomes the uniform envelope (error flag plus one
descriptive text item), a metadata-lookup failure in `getImage` likewise,
and on the success paths the error flag is false - no execution path
propagates an error outward. -/
theorem tools_never_throw :
    (∀ (e : String) (ifd : Option BoolIsh) (b64 : List Nat → String)
      (render : GenerateResult → String),
      generateVideoFromTextTool (.error e) ifd b64 render
        = ⟨true, [.text ("Error generating video: " ++ e)]⟩) ∧
    (∀ (r : GenerateResult) (ifd : Option BoolIsh) (b64 : List Nat → String)
      (render : GenerateResult → String),
      (generateVideoFromTextTool (.ok r) ifd b64 render).isError = false) ∧
    (∀ (s : IStore) (b64 : List Nat → String) (render : ImageMetadata → String)
      (id e : String) (ifd : Option BoolIsh),
      getImageMetadata s id = .error e →
      getImage s b64 render id ifd
        = ⟨true, [.text ("Error getting image: " ++ e)]⟩) ∧
    (∀ (s : IStore) (b64 : List Nat → String) (render : ImageMetadata → String)
      (id : String) (ifd : Option BoolIsh) (m : ImageMetadata),
      getImageMetadata s id = .ok m →
      (getImage s b64 render id ifd).isError = false) := by
  refine ⟨fun e ifd b64 render => rfl, fun r ifd b64 render => rfl, ?_, ?_⟩
  · intro s b64 render id e ifd he
    unfold getImage
    rw [he]
  · intro s b64 render id ifd m hm
    unfold getImage
    rw [hm]

/-- C8 witness: a lookup miss in a concrete empty image store yields the
failure envelope with a single text message. -/
theorem tools_never_throw_witness :
    getImage (⟨"/i", []⟩ : IStore) (fun _ => "") (fun _ => "") "x" none
      = ⟨true, [.text "Error getting image: Image metadata not found: x"]⟩ := by
  exact tools_never_throw.2.2.1 (⟨"/i", []⟩ : IStore) (fun _ => "") (fun _ => "")
    "x" "Image metadata not found: x" none rfl

/-! ## Deferred-download metadata (C5) -/

theorem readFile_writeFile_cases (s : Store μ) (q p : FilePath) (c0 c : FileContent μ)
    (h : readFile (writeFile s q c0) p = some c) :
    (p = q ∧ c = c0) ∨ readFile s p = some c := by
  by_cases hpq : p = q
  · subst hpq
    rw [readFile_writeFile_same] at h
    exact Or.inl ⟨rfl, (Option.some.inj h).symm⟩
  · rw [readFile_writeFile_ne _ _ _ _ hpq] at h
    exact Or.inr h

theorem append_key_ne_empty (a b : String) : a ++ "&key=" ++ b ≠ "" := by
  intro h
  have hlen := congrArg String.length h
  rw [String.length_append, String.length_append] at hlen
  have h5 : ("&key=" : String).length = 5 := rfl
  have h0 : ("" : String).length = 0 := rfl
  rw [h5, h0] at hlen
  omega

/-- Shape of every metadata record persisted on the `autoDownload=false`
path: empty filepath sentinel, zero size, and the remote reference (with
the appended key) retained as `videoUrl`. -/
def deferredShape (apiKey : String) (m : StoredVideoMetadata) : Prop :=
  m.filepath = none ∧ m.size = 0 ∧ ∃ u, m.videoUrl = some (u ++ "&key=" ++ apiKey)

/-- The record built in the `autoDownload=false` branch of the fan-out. -/
def deferredMeta (env : GenEnv) (prompt : Option String) (config : Option VideoConfig)
    (idx : Nat) (uri : String) : StoredVideoMetadata :=
  { id := if idx = 0 then env.uuid idx else env.uuid idx ++ "_" ++ toString idx
    createdAt := env.now
    prompt := prompt
    config := effectiveConfig config
    mimeType := "video/mp4"
    size := 0
    filepath := none
    videoUrl := some (uri ++ "&key=" ++ env.apiKey) }

theorem deferredMeta_shape (env : GenEnv) (prompt : Option String)
    (config : Option VideoConfig) (idx : Nat) (uri : String) :
    deferredShape env.apiKey (deferredMeta env prompt config idx uri) :=
  ⟨rfl, rfl, uri, rfl⟩

theorem processOne_noDownload (env : GenEnv) (s : VStore) (prompt : Option String)
    (config : Option VideoConfig) (idx : Nat) (gv : GeneratedVideo) :
    (fetchableUri gv = none → processOne env s prompt config false idx gv = (.ok none, s)) ∧
    (∀ uri, fetchableUri gv = some uri →
      processOne env s prompt config false idx gv
        = (.ok (some (deferredMeta env prompt config idx uri)),
           saveMetadata s (deferredMeta env prompt config idx uri).id
             (deferredMeta env prompt config idx uri))) := by
  constructor
  · intro hu
    unfold processOne
    rw [hu]
  · intro uri hu
    unfold processOne
    rw [hu]
    rfl

theorem processVideos_deferred_props (env : GenEnv) (prompt : Option String)
    (config : Option VideoConfig) :
    ∀ (gvs : List GeneratedVideo) (s : VStore) (idx : Nat),
      (processVideos env prompt config false s idx gvs).1 = none ∧
      (∀ v ∈ (processVideos env prompt config false s idx gvs).2.1,
        ∀ m, v = some m → deferredShape env.apiKey m) ∧
      (∀ p c, readFile (processVideos env prompt config false s idx gvs).2.2 p = some c →
        readFile s p = some c ∨ ∃ m, c = .metaJson m ∧ deferredShape env.apiKey m) := by
  intro gvs
  induction gvs with
  | nil =>
    intro s idx
    refine ⟨rfl, ?_, fun p c h => Or.inl h⟩
    intro v hv
    exact absurd hv (by simp [processVideos])
  | cons gv rest ih =>
    intro s idx
    cases hu : fetchableUri gv with
    | none =>
      have hone := (processOne_noDownload env s prompt config idx gv).1 hu
      have hred : processVideos env prompt config false s idx (gv :: rest)
          = ((processVideos env prompt config false s (idx + 1) rest).1,
             none :: (processVideos env prompt config false s (idx + 1) rest).2.1,
             (processVideos env prompt config false s (idx + 1) rest).2.2) := by
        simp only [processVideos, hone]
      obtain ⟨ih1, ih2, ih3⟩ := ih s (idx + 1)
      rw [hred]
      refine ⟨ih1, ?_, ih3⟩
      intro v hv m hvm
      rcases List.mem_cons.mp hv with h | h
      · rw [h] at hvm; exact absurd hvm (by simp)
      · exact ih2 v h m hvm
    | some uri =>
      have hone := (processOne_noDownload env s prompt config idx gv).2 uri hu
      have hred : processVideos env prompt config false s idx (gv :: rest)
          = ((processVideos env prompt config false
                (saveMetadata s (deferredMeta env prompt config idx uri).id
                  (deferredMeta env prompt config idx uri)) (idx + 1) rest).1,
             some (deferredMeta env prompt config idx uri)
               :: (processVideos env prompt config false
                    (saveMetadata s (deferredMeta env prompt config idx uri).id
                      (deferredMeta env prompt config idx uri)) (idx + 1) rest).2.1,
             (processVideos env prompt config false
                (saveMetadata s (deferredMeta env prompt config idx uri).id
                  (deferredMeta env prompt config idx uri)) (idx + 1) rest).2.2) := by
        simp only [processVideos, hone]
      obtain ⟨ih1, ih2, ih3⟩ := ih
        (saveMetadata s (deferredMeta env prompt config idx uri).id
          (deferredMeta env prompt config idx uri)) (idx + 1)
      rw [hred]
      refine ⟨ih1, ?_, ?_⟩
      · intro v hv m hvm
        rcases List.mem_cons.mp hv with h | h
        · rw [h] at hvm
          rw [← Option.some.inj hvm]
          exact deferredMeta_shape env prompt config idx uri
        · exact ih2 v h m hvm
      · intro p c h
        rcases ih3 p c h with h1 | h1
        · unfold saveMetadata at h1
          rcases readFile_writeFile_cases _ _ _ _ _ h1 with ⟨_, hc⟩ | h2
          · exact Or.inr ⟨deferredMeta env prompt config idx uri, hc,
              deferredMeta_shape env prompt config idx uri⟩
          · exact Or.inl h2
        · exact Or.inr h1

/-- C5: on the `autoDownload=false` path of a text generation call, no
binary file is written (every binary readable afterwards was already
there), every sidecar written by the call carries deferred metadata -
empty filepath sentinel, size zero, non-empty `videoUrl` retaining the
remote reference - and a successful call returns such metadata. -/
theorem generateFromText_deferred (env : GenEnv) (s : VStore) (prompt : String)
    (config : Option VideoConfig) (ifd : Option Bool)
    (operation : VideoOperationModel) :
    (∀ p d, readFile
        (generateFromTextCore env s prompt config (some ⟨some false, ifd⟩) operation).2 p
          = some (.binary d) →
      readFile s p = some (.binary d)) ∧
    (∀ p m, readFile
        (generateFromTextCore env s prompt config (some ⟨some false, ifd⟩) operation).2 p
          = some (.metaJson m) →
      readFile s p = some (.metaJson m) ∨
        (m.filepath = none ∧ m.size = 0 ∧ ∃ u, m.videoUrl = some u ∧ u ≠ "")) ∧
    (∀ r, (generateFromTextCore env s prompt config (some ⟨some false, ifd⟩) operation).1
          = .ok r →
      r.metadata.filepath = none ∧ r.metadata.size = 0 ∧
        ∃ u, r.metadata.videoUrl = some u ∧ u ≠ "") := by
  have hopt : generateFromTextCore env s prompt config (some ⟨some false, ifd⟩) operation
      = runGeneration env s prompt config false (ifd == some true)
          (operation.response.bind (·.generatedVideos)) := rfl
  rw [hopt]
  cases hg : operation.response.bind (·.generatedVideos) with
  | none =>
    refine ⟨?_, ?_, ?_⟩
    · intro p d h
      simpa [runGeneration] using h
    · intro p m h
      exact Or.inl (by simpa [runGeneration] using h)
    · intro r h
      rw [show runGeneration env s prompt config false (ifd == some true) none
          = (.error "No videos generated in the response", s) from rfl] at h
      exact absurd h (by simp)
  | some gvs =>
    by_cases hlen : gvs.length = 0
    · refine ⟨?_, ?_, ?_⟩
      · intro p d h
        rw [show runGeneration env s prompt config false (ifd == some true) (some gvs)
            = (.error "No videos generated in the response", s) from by
          simp [runGeneration, hlen]] at h
        exact h
      · intro p m h
        rw [show runGeneration env s prompt config false (ifd == some true) (some gvs)
            = (.error "No videos generated in the response", s) from by
          simp [runGeneration, hlen]] at h
        exact Or.inl h
      · intro r h
        rw [show runGeneration env s prompt config false (ifd == some true) (some gvs)
            = (.error "No videos generated in the response", s) from by
          simp [runGeneration, hlen]] at h
        exact absurd h (by simp)
    · obtain ⟨ht1, hvals, hstate⟩ :=
        processVideos_deferred_props env (some prompt) config gvs s 0
      have hstate2 : ∀ p c,
          readFile (processVideos env (some prompt) config false s 0 gvs).2.2 p = some c →
          readFile s p = some c ∨
            ∃ m, c = .metaJson m ∧ deferredShape env.apiKey m := hstate
      cases hfm : ((processVideos env (some prompt) config false s 0 gvs).2.1).filterMap id with
      | nil =>
        have hrun : runGeneration env s prompt config false (ifd == some true) (some gvs)
            = (.error "Failed to process any videos",
               (processVideos env (some prompt) config false s 0 gvs).2.2) := by
          simp only [runGeneration, if_neg hlen, ht1, hfm]
        refine ⟨?_, ?_, ?_⟩
        · intro p d h
          rw [hrun] at h
          rcases hstate2 p _ h with h1 | ⟨m, hm, _⟩
          · exact h1
          · exact absurd hm (by simp)
        · intro p m h
          rw [hrun] at h
          rcases hstate2 p _ h with h1 | ⟨m', hm', hsh⟩
          · exact Or.inl h1
          · obtain ⟨u, hu⟩ := hsh.2.2
            refine Or.inr ⟨?_, ?_, u ++ "&key=" ++ env.apiKey, ?_, append_key_ne_empty u env.apiKey⟩
            · rw [FileContent.metaJson.inj hm']; exact hsh.1
            · rw [FileContent.metaJson.inj hm']; exact hsh.2.1
            · rw [FileContent.metaJson.inj hm']; exact hu
        · intro r h
          rw [hrun] at h
          exact absurd h (by simp)
      | cons result rest' =>
        have hmem : some result ∈ (processVideos env (some prompt) config false s 0 gvs).2.1 := by
          have : result ∈ ((processVideos env (some prompt) config false s 0 gvs).2.1).filterMap id := by
            rw [hfm]; exact List.mem_cons_self result rest'
          obtain ⟨a, ha, haid⟩ := List.mem_filterMap.mp this
          rw [show a = some result from haid] at ha
          exact ha
        have hshape := hvals (some result) hmem result rfl
        obtain ⟨hfp, hsz, u, hurl⟩ := hshape
        have hne : ((u ++ "&key=" ++ env.apiKey : String) == "") = false :=
          beq_eq_false_iff_ne.mpr (append_key_ne_empty u env.apiKey)
        have hrun : runGeneration env s prompt config false (ifd == some true) (some gvs)
            = (.ok ⟨result, none⟩,
               (processVideos env (some prompt) config false s 0 gvs).2.2) := by
          simp only [runGeneration, if_neg hlen, ht1, hfm, hurl]
          simp [hne]
        refine ⟨?_, ?_, ?_⟩
        · intro p d h
          rw [hrun] at h
          rcases hstate2 p _ h with h1 | ⟨m, hm, _⟩
          · exact h1
          · exact absurd hm (by simp)
        · intro p m h
          rw [hrun] at h
          rcases hstate2 p _ h with h1 | ⟨m', hm', hsh⟩
          · exact Or.inl h1
          · obtain ⟨u', hu'⟩ := hsh.2.2
            refine Or.inr ⟨?_, ?_, u' ++ "&key=" ++ env.apiKey, ?_, append_key_ne_empty u' env.apiKey⟩
            · rw [FileContent.metaJson.inj hm']; exact hsh.1
            · rw [FileContent.metaJson.inj hm']; exact hsh.2.1
            · rw [FileContent.metaJson.inj hm']; exact hu'
        · intro r h
          rw [hrun] at h
          have hr : r = ⟨result, none⟩ := (Except.ok.inj h.symm)
          rw [hr]
          exact ⟨hfp, hsz, u ++ "&key=" ++ env.apiKey, hurl, append_key_ne_empty u env.apiKey⟩

/-- C5 witness: a concrete deferred call returns metadata with the empty
filepath sentinel, zero size and a non-empty videoUrl. -/
theorem generateFromText_deferred_witness :
    (⟨⟨"id0", "T", some "p", ⟨"16:9", "dont_allow", 5⟩, "video/mp4", 0, none,
        some "u1&key=K"⟩, none⟩ : GenerateResult).metadata.filepath = none ∧
    (⟨⟨"id0", "T", some "p", ⟨"16:9", "dont_allow", 5⟩, "video/mp4", 0, none,
        some "u1&key=K"⟩, none⟩ : GenerateResult).metadata.size = 0 ∧
    ∃ u, (⟨⟨"id0", "T", some "p", ⟨"16:9", "dont_allow", 5⟩, "video/mp4", 0, none,
        some "u1&key=K"⟩, none⟩ : GenerateResult).metadata.videoUrl = some u ∧ u ≠ "" := by
  exact (generateFromText_deferred
    ⟨"K", "T", fun _ => "id0", fun _ => .httpError 500 "E"⟩
    ⟨"/s", []⟩ "p" none none
    ⟨true, some ⟨some [⟨some ⟨some "u1"⟩⟩]⟩⟩).2.2
    ⟨⟨"id0", "T", some "p", ⟨"16:9", "dont_allow", 5⟩, "video/mp4", 0, none,
      some "u1&key=K"⟩, none⟩ rfl

/-! ## Fan-out partial failure (C1) -/

theorem processOne_download_ok (env : GenEnv) (s : VStore) (prompt : Option String)
    (config : Option VideoConfig) (idx : Nat) (gv : GeneratedVideo) (uri : String)
    (data : List Nat) (hu : fetchableUri gv = some uri)
    (hf : env.fetch (uri ++ "&key=" ++ env.apiKey) = .ok data) :
    processOne env s prompt config true idx gv
      = (.ok (some (saveVideoBuffer s data prompt config
            (if idx = 0 then env.uuid idx else env.uuid idx ++ "_" ++ toString idx)
            env.now).1),
         (saveVideoBuffer s data prompt config
            (if idx = 0 then env.uuid idx else env.uuid idx ++ "_" ++ toString idx)
            env.now).2) := by
  unfold processOne
  rw [hu]
  simp [hf]

theorem processOne_download_err (env : GenEnv) (s : VStore) (prompt : Option String)
    (config : Option VideoConfig) (idx : Nat) (gv : GeneratedVideo) (uri : String)
    (status : Nat) (statusText : String) (hu : fetchableUri gv = some uri)
    (hf : env.fetch (uri ++ "&key=" ++ env.apiKey) = .httpError status statusText) :
    processOne env s prompt config true idx gv
      = (.error ("Failed to fetch video: " ++ toString status ++ " " ++ statusText), s) := by
  unfold processOne
  rw [hu]
  simp [hf]

theorem processOne_skip (env : GenEnv) (s : VStore) (prompt : Option String)
    (config : Option VideoConfig) (idx : Nat) (autoDownload : Bool) :
    processOne env s prompt config autoDownload idx ⟨none⟩ = (.ok none, s) := by
  unfold processOne
  rfl

/-- C1 counterexample: two descriptors, descriptor 1 downloading fine and
descriptor 2's fetch returning HTTP 500 - the call does not succeed with
one persisted artifact, it fails with the fetch error. -/
theorem fanout_download_failure_counterexample :
    (generateFromTextCore
        ⟨"K", "T", fun _ => "id0",
          fun u => if u == "u1&key=K" then .ok [7] else .httpError 500 "ERR"⟩
        ⟨"/s", []⟩ "p" none none
        ⟨true, some ⟨some [⟨some ⟨some "u1"⟩⟩, ⟨some ⟨some "u2"⟩⟩]⟩⟩).1
      = .error "Failed to fetch video: 500 ERR" := by
  rfl

/-- C1 amended: a descriptor lacking a fetchable reference is skipped and
the call still succeeds with the remaining persisted artifact; but a
non-success fetch status on any descriptor is not absorbed - it rejects
the whole fan-out, so the call (text or image variant) fails with the
fetch error even though descriptor 1's artifact was already persisted. -/
theorem fanout_fetch_failure_rejects_call (env : GenEnv) (s : VStore)
    (prompt : String) (config : Option VideoConfig) (u₁ u₂ : String)
    (data : List Nat) (status : Nat) (statusText : String)
    (hu₁ : u₁ ≠ "") (hu₂ : u₂ ≠ "")
    (hf1 : env.fetch (u₁ ++ "&key=" ++ env.apiKey) = .ok data)
    (hf2 : env.fetch (u₂ ++ "&key=" ++ env.apiKey) = .httpError status statusText) :
    generateFromTextCore env s prompt config none
        ⟨true, some ⟨some [⟨some ⟨some u₁⟩⟩, ⟨none⟩]⟩⟩
      = (.ok ⟨(saveVideoBuffer s data (some prompt) config (env.uuid 0) env.now).1, none⟩,
         (saveVideoBuffer s data (some prompt) config (env.uuid 0) env.now).2) ∧
    generateFromTextCore env s prompt config none
        ⟨true, some ⟨some [⟨some ⟨some u₁⟩⟩, ⟨some ⟨some u₂⟩⟩]⟩⟩
      = (.error ("Failed to fetch video: " ++ toString status ++ " " ++ statusText),
         (saveVideoBuffer s data (some prompt) config (env.uuid 0) env.now).2) ∧
    (∀ p : Option String,
      (generateFromImageCore env s p config none
          ⟨true, some ⟨some [⟨some ⟨some u₁⟩⟩, ⟨some ⟨some u₂⟩⟩]⟩⟩).1
        = .error ("Failed to fetch video: " ++ toString status ++ " " ++ statusText)) := by
  have hfu1 : fetchableUri ⟨some ⟨some u₁⟩⟩ = some u₁ := by
    unfold fetchableUri
    simp [hu₁]
  have hfu2 : fetchableUri ⟨some ⟨some u₂⟩⟩ = some u₂ := by
    unfold fetchableUri
    simp [hu₂]
  have h1 : ∀ pr : String, processOne env s (some pr) config true 0 ⟨some ⟨some u₁⟩⟩
      = (.ok (some (saveVideoBuffer s data (some pr) config (env.uuid 0) env.now).1),
         (saveVideoBuffer s data (some pr) config (env.uuid 0) env.now).2) := by
    intro pr
    have := processOne_download_ok env s (some pr) config 0 ⟨some ⟨some u₁⟩⟩ u₁ data hfu1 hf1
    simpa using this
  have h3 : ∀ (pr : String) (s' : VStore),
      processOne env s' (some pr) config true 1 ⟨some ⟨some u₂⟩⟩
        = (.error ("Failed to fetch video: " ++ toString status ++ " " ++ statusText), s') := by
    intro pr s'
    exact processOne_download_err env s' (some pr) config 1 ⟨some ⟨some u₂⟩⟩ u₂
      status statusText hfu2 hf2
  have key : ∀ pr : String,
      generateFromTextCore env s pr config none
          ⟨true, some ⟨some [⟨some ⟨some u₁⟩⟩, ⟨some ⟨some u₂⟩⟩]⟩⟩
        = (.error ("Failed to fetch video: " ++ toString status ++ " " ++ statusText),
           (saveVideoBuffer s data (some pr) config (env.uuid 0) env.now).2) := by
    intro pr
    have hB : processVideos env (some pr) config true s 0
        [⟨some ⟨some u₁⟩⟩, ⟨some ⟨some u₂⟩⟩]
        = (some ("Failed to fetch video: " ++ toString status ++ " " ++ statusText),
           [some (saveVideoBuffer s data (some pr) config (env.uuid 0) env.now).1],
           (saveVideoBuffer s data (some pr) config (env.uuid 0) env.now).2) := by
      simp only [processVideos, h1 pr]
      simp only [processVideos, h3 pr]
    show runGeneration env s pr config true false
        (some [⟨some ⟨some u₁⟩⟩, ⟨some ⟨some u₂⟩⟩]) = _
    simp only [runGeneration, hB]
    rfl
  refine ⟨?_, key prompt, ?_⟩
  · have hA : processVideos env (some prompt) config true s 0
        [⟨some ⟨some u₁⟩⟩, ⟨none⟩]
        = (none,
           [some (saveVideoBuffer s data (some prompt) config (env.uuid 0) env.now).1,
            none],
           (saveVideoBuffer s data (some prompt) config (env.uuid 0) env.now).2) := by
      simp only [processVideos, h1 prompt, processOne_skip]
    show runGeneration env s prompt config true false
        (some [⟨some ⟨some u₁⟩⟩, ⟨none⟩]) = _
    simp only [runGeneration, hA]
    rfl
  · intro p
    show (generateFromTextCore env s (orDefaultStr p "Generate a video from this image")
        config none ⟨true, some ⟨some [⟨some ⟨some u₁⟩⟩, ⟨some ⟨some u₂⟩⟩]⟩⟩).1 = _
    rw [key (orDefaultStr p "Generate a video from this image")]

/-- C1 amended witness: with a concrete environment, the skip case yields
the single persisted artifact and a successful call. -/
theorem fanout_fetch_failure_rejects_call_witness :
    generateFromTextCore
        ⟨"K", "T", fun _ => "id0",
          fun u => if u == "u1&key=K" then .ok [7] else .httpError 500 "ERR"⟩
        ⟨"/s", []⟩ "p" none none
        ⟨true, some ⟨some [⟨some ⟨some "u1"⟩⟩, ⟨none⟩]⟩⟩
      = (.ok ⟨(saveVideoBuffer ⟨"/s", []⟩ [7] (some "p") none "id0" "T").1, none⟩,
         (saveVideoBuffer ⟨"/s", []⟩ [7] (some "p") none "id0" "T").2) := by
  exact (fanout_fetch_failure_rejects_call
    ⟨"K", "T", fun _ => "id0",
      fun u => if u == "u1&key=K" then .ok [7] else .httpError 500 "ERR"⟩
    ⟨"/s", []⟩ "p" none "u1" "u2" [7] 500 "ERR"
    (by decide) (by decide) rfl rfl).1

end Veo

